import Mathlib

/-!
Verification development for the monad-spin-automation repository
(`src/main.py`).  The program drives a browser automation loop; its
effectful collaborators (the Playwright UI surface and the process-wide
shutdown flag) are modelled by explicit environment records describing
what each UI query / flag read observes, so that every function of the
source becomes a pure Lean function of its environment.

Conventions:
* Python `float` amounts are modelled as `ℚ` (the source only adds
  finitely many decimal literals; rounding is below the abstraction).
* Python `dict[str, float]` (`total_winnings`, insertion ordered) is
  modelled as an association list `List (String × ℚ)`.
* A Python call that may raise an exception is modelled with `Option`:
  `none` is "the call raised" at that point of the control flow.
-/

/-- Insertion-ordered map from currency code to accumulated amount:
the Python dict `total_winnings : Dict[str, float]`. -/
abbrev Ledger := List (String × ℚ)

/-- Lines 384–387 of `src/main.py`: `if currency in total_winnings:
total_winnings[currency] += amount else: total_winnings[currency] = amount`.
An existing key is updated in place; a new key is appended at the end
(Python dicts preserve insertion order). -/
def addWinnings : Ledger → String → ℚ → Ledger
  | [], c, a => [(c, a)]
  | (c0, a0) :: rest, c, a =>
    if c0 = c then (c0, a0 + a) :: rest else (c0, a0) :: addWinnings rest c a

/-- Environment observed by one call of `process_spin_result`
(lines 336–405).

* `counts` — the values of `congratulations.count()` and `no_win.count()`
  (lines 363–364); `none` means the count call raised an automation
  error, which propagates to the caller (`perform_spins` catches it and
  breaks).
* `prize` — the overall result of the best-effort prize extraction
  (lines 371–394): locate `.text-yellow-300`, read its text and match the
  pattern `amount currency`; `some (amount, currency)` if every step
  succeeded, `none` if the element is absent (`count() == 0`), the
  pattern does not match, or an automation error occurred (the
  surrounding `try`/`except` at lines 371/393 swallows all of these).
  Only consulted in the win branch, as in the source. -/
structure ResultEnv where
  counts : Option (ℕ × ℕ)
  prize : Option (ℚ × String)
deriving DecidableEq

/-- Lines 336–405, `process_spin_result`: classify one spin outcome and
update the counters and the ledger.  Returns `none` when the heading
`count()` calls raise (the caller's `except` clause then breaks the
cycle without updating `wins`/`losses`).  The call to
`confirm_transaction` at line 397 never raises and neither reads nor
writes `wins`/`losses`/`total_winnings`; it is modelled separately by
`confirm_transaction` below. -/
def process_spin_result (env : ResultEnv) (wins losses : ℕ) (total_winnings : Ledger) :
    Option (ℕ × ℕ × Ledger) :=
  match env.counts with
  | none => none
  | some (cc, nc) =>
    if 0 < cc then
      -- lines 366–397: win branch; wins += 1, best-effort ledger update
      let tw :=
        match env.prize with
        | some (a, cur) => addWinnings total_winnings cur a
        | none => total_winnings
      some (wins + 1, losses, tw)
    else if 0 < nc then
      -- lines 399–401: loss branch
      some (wins, losses + 1, total_winnings)
    else
      -- lines 402–403: indeterminate; a warning is logged, no counter moves
      some (wins, losses, total_winnings)

/-- One locator strategy of the Confirm-button fallback chain
(`confirm_transaction`, lines 292–312): `found` is whether the
strategy's `wait_for_selector` succeeds within its timeout, `clickOk`
whether the subsequent `click()` call succeeds (a failing click is
caught and the next strategy is tried). -/
structure MethodEnv where
  found : Bool
  clickOk : Bool
deriving DecidableEq

/-- Environment observed by one call of `confirm_transaction`
(lines 248–334).  The `sd` fields are the values read from the shutdown
flag at the function's three checks (lines 256, 273, 284).  `attach` is
whether the wallet iframe attaches within the bounded wait (line 263);
`frameOk` whether `content_frame()` yields a frame (lines 265–269);
`cue` whether the optional "Confirm transaction" cue appears (line 278,
tolerated either way, no observable effect beyond logging);
`m1`/`m2`/`m3` the three fallback locator strategies.  The detach wait
and the count-based closure re-check (lines 318–327) only log and
perform no clicks, and every exception of the body is caught by the
outer `except` at lines 331–333, so they are not separate fields. -/
structure ConfirmEnv where
  sdStart : Bool
  attach : Bool
  frameOk : Bool
  sdAfterAttach : Bool
  cue : Bool
  sdBeforeClick : Bool
  m1 : MethodEnv
  m2 : MethodEnv
  m3 : MethodEnv
deriving DecidableEq

/-- Observable outcome of `confirm_transaction`: how many `click()`
invocations were attempted on a Confirm control, whether one of them
succeeded (`confirm_clicked` in the source), and whether an exception
propagated to the caller.  By the catch-all `except` at lines 331–333
(which does not re-raise) no exception ever propagates, so
`raisedToCaller` is `false` on every path of the translation. -/
structure ConfirmRes where
  clicks : ℕ
  confirmClicked : Bool
  raisedToCaller : Bool
deriving DecidableEq

/-- One step of the fallback chain: if the strategy's selector is found,
a click is attempted (counted) and succeeds iff `clickOk`; if the
selector wait fails, no click is attempted and the strategy fails. -/
def tryMethod (m : MethodEnv) (acc : ℕ) : ℕ × Bool :=
  if m.found then (acc + 1, m.clickOk) else (acc, false)

/-- Lines 248–334, `confirm_transaction`: wait for the wallet
confirmation iframe and click its Confirm control through an ordered
fallback chain.  Every early `return` and every caught exception yields
zero further clicks; the post-click detach wait (lines 318–329) performs
no clicks and all its failures are caught, so it adds nothing
observable. -/
def confirm_transaction (env : ConfirmEnv) : ConfirmRes :=
  if env.sdStart then ⟨0, false, false⟩                 -- line 256: early return
  else if env.attach = false then ⟨0, false, false⟩     -- line 263 raises; caught at line 331
  else if env.frameOk = false then ⟨0, false, false⟩    -- line 269 raises; caught at line 331
  else if env.sdAfterAttach then ⟨0, false, false⟩      -- lines 273–275: early return
  else if env.sdBeforeClick then ⟨0, false, false⟩      -- lines 284–285: early return
  else
    let r1 := tryMethod env.m1 0
    if r1.2 then ⟨r1.1, true, false⟩
    else
      let r2 := tryMethod env.m2 r1.1
      if r2.2 then ⟨r2.1, true, false⟩
      else
        let r3 := tryMethod env.m3 r2.1
        ⟨r3.1, r3.2, false⟩

/-- Environment observed by one iteration of the spin loop in
`perform_spins` (lines 434–491).  The `sd` fields are the values the
iteration's shutdown-flag checks would read, in source order:
`sd0` line 436 (break), `sd1` line 451 (log only), the three checks
inside `confirm_transaction`, `sd2` line 458 (break), `sd3` line 470
(skip the delay), `sdDelay` line 476 (break out of the chunked delay
only — the outer loop then stops at the next iteration's `sd0`).
`spinOk` / `contOk` are whether the SPIN NOW wait-and-click
(lines 444–446) and the Spin Again wait-and-click (lines 463–465)
succeed; a failure raises and the `except` clauses at lines 481–491
break the loop. -/
structure IterEnv where
  sd0 : Bool
  spinOk : Bool
  sd1 : Bool
  res : ResultEnv
  confirm : ConfirmEnv
  sd2 : Bool
  contOk : Bool
  sd3 : Bool
  sdDelay : Bool
deriving DecidableEq

instance : Inhabited IterEnv :=
  ⟨⟨false, false, false, ⟨none, none⟩, ⟨false, false, false, false, false, false,
    ⟨false, false⟩, ⟨false, false⟩, ⟨false, false⟩⟩, false, false, false, false⟩⟩

/-- State of the spin loop of `perform_spins`.  `i` is the Python loop
variable `spin_iteration` (the index of the current iteration while the
loop runs; after the loop it holds the value the statistics are computed
from).  `started`, `processed` and `completed` are ghost observers used
only in theorem statements: the number of iterations that entered the
loop body past the line-436 shutdown check, the number whose
`process_spin_result` call returned (bookkeeping finished), and the
number that ran the whole body to the end without breaking. -/
structure LoopSt where
  i : ℕ
  wins : ℕ
  losses : ℕ
  winnings : Ledger
  started : ℕ
  processed : ℕ
  completed : ℕ
deriving DecidableEq

/-- Lines 434–491 of `perform_spins`: the `for spin_iteration in
range(total_spins)` loop over the per-iteration environments.  Every
`except` clause of the body (lines 481–491) breaks the loop without
re-raising, so each failure path returns the state normally.  The
line-451 check only logs, the line-470 check only skips the delay, and
the line-476 checks only break the chunked delay (the outer loop then
stops at the next iteration's line-436 check); none of these three
changes the state.  On normal exhaustion Python leaves
`spin_iteration` at the last index, i.e. `i - 1` (`0` when the loop
never ran, matching the initialisation at line 431 and ℕ truncation). -/
def spinLoop : List IterEnv → LoopSt → LoopSt
  | [], s => { s with i := s.i - 1 }
  | e :: rest, s =>
    if e.sd0 then s                                     -- lines 436–438: break
    else
      let s1 := { s with started := s.started + 1 }
      if e.spinOk = false then s1                       -- click raised → except → break
      else
        match process_spin_result e.res s.wins s.losses s.winnings with
        | none => s1                                    -- count() raised → except → break
        | some (w, l, tw) =>
          let s2 := { s1 with wins := w, losses := l, winnings := tw,
                              processed := s.processed + 1 }
          if e.sd2 then s2                              -- lines 458–460: break
          else if e.contOk = false then s2              -- Spin Again raised → break
          else spinLoop rest { s2 with i := s.i + 1, completed := s.completed + 1 }

/-- The statistics dict returned by `perform_spins` (lines 510–516). -/
structure Stats where
  total_spins : ℕ
  wins : ℕ
  losses : ℕ
  win_rate : ℚ
  total_winnings : Ledger
deriving DecidableEq

/-- Initial state of the spin cycle (lines 428–431): all counters `0`,
empty ledger, `spin_iteration = 0`. -/
def initSt : LoopSt := ⟨0, 0, 0, [], 0, 0, 0⟩

/-- The spin loop run from the initial state. -/
def runSpins (envs : List IterEnv) : LoopSt := spinLoop envs initSt

/-- Lines 408–516, `perform_spins` (the spin budget `total_spins` is the
length of the environment list — one potential environment per
iteration of `range(total_spins)`).  After the loop, line 500 computes
`total_spins_completed = spin_iteration + 1 if spin_iteration > 0 or
wins + losses > 0 else 0` and line 501 computes the win rate as a
percentage: `wins / (wins + losses) * 100` when `wins + losses > 0`,
else `0`. -/
def performStats (envs : List IterEnv) : Stats :=
  let s := spinLoop envs initSt
  let total_spins_completed := if 0 < s.i ∨ 0 < s.wins + s.losses then s.i + 1 else 0
  let win_rate : ℚ :=
    if 0 < s.wins + s.losses then (s.wins : ℚ) / (((s.wins + s.losses : ℕ)) : ℚ) * 100 else 0
  ⟨total_spins_completed, s.wins, s.losses, win_rate, s.winnings⟩

/-- `perform_spins` as seen by its caller (`main`, line 638): the
`except` clauses inside the loop (lines 481–491) catch every exception
of the body and break, and the outer `except` at lines 493–497 can
therefore never be reached by a raising body, so the function always
returns its statistics dict normally and never propagates an error. -/
def perform_spins (envs : List IterEnv) : Except String Stats :=
  .ok (performStats envs)

/-- Positional value of a digit string, as computed by Python
`int(...)` on a run of decimal digits. -/
def natOfDigits (ds : List Char) : ℕ :=
  ds.foldl (fun n c => 10 * n + (c.toNat - '0'.toNat)) 0

/-- The semantics of `re.search(r'\d+', text)` (line 233): the first
maximal contiguous run of decimal digits of the text, or `none` when
the text has no digit. -/
def firstDigitRun : List Char → Option (List Char)
  | [] => none
  | c :: cs =>
    if c.isDigit then some ((c :: cs).takeWhile Char.isDigit)
    else firstDigitRun cs

/-- Lines 214–245, `parse_remaining_spins`.  The input is the text read
from the remaining-spins element: `none` when the element cannot be
located or any automation error occurs while reading it (every
exception of the body is caught at lines 243–245 and the fallback is
returned).  With a text in hand, line 233 searches for the first digit
run; line 236 parses it with `int`; otherwise line 241 returns the
fallback `3000`. -/
def parse_remaining_spins (spinsText : Option String) : ℕ :=
  match spinsText with
  | none => 3000
  | some t =>
    match firstDigitRun t.data with
    | some ds => natOfDigits ds
    | none => 3000

/-- The shutdown-flag readings one iteration would observe, in source
order (see `IterEnv`); eight per iteration. -/
def checkFlags (e : IterEnv) : List Bool :=
  [e.sd0, e.sd1, e.confirm.sdStart, e.confirm.sdAfterAttach, e.confirm.sdBeforeClick,
   e.sd2, e.sd3, e.sdDelay]

/-- All shutdown-flag readings of a run, in program order. -/
def sdFlags : List IterEnv → List Bool
  | [] => []
  | e :: rest => checkFlags e ++ sdFlags rest

/-- A reading sequence is monotone when every `true` is followed only by
`true`: the shutdown flag (`asyncio.Event`, set once by the interrupt
handler at line 553 and never cleared) can only go from unset to set. -/
def sdMonoList : List Bool → Bool
  | [] => true
  | b :: rest => (!b || rest.all (fun x => x)) && sdMonoList rest

/-! ### Concrete environments used in witnesses and counterexamples -/

/-- A confirmation environment in which nothing happens: shutdown unset,
wallet modal never attaches. -/
def quietConfirm : ConfirmEnv :=
  ⟨false, false, false, false, false, false, ⟨false, false⟩, ⟨false, false⟩, ⟨false, false⟩⟩

/-- An undisturbed winning iteration: no shutdown observed, both clicks
succeed, the win heading is present and the prize parses as
`amount cur`. -/
def winIter (amount : ℚ) (cur : String) : IterEnv :=
  ⟨false, true, false, ⟨some (1, 0), some (amount, cur)⟩, quietConfirm, false, true, false, false⟩

/-- An undisturbed losing iteration. -/
def lossIter : IterEnv :=
  ⟨false, true, false, ⟨some (0, 1), none⟩, quietConfirm, false, true, false, false⟩

/-- An undisturbed iteration with neither heading present
(indeterminate outcome). -/
def indetIter : IterEnv :=
  ⟨false, true, false, ⟨some (0, 0), none⟩, quietConfirm, false, true, false, false⟩

/-- An iteration at whose every suspension point the shutdown flag reads
set (the loop breaks at its head check). -/
def fullSdIter : IterEnv :=
  ⟨true, true, true, ⟨some (0, 0), none⟩,
   ⟨true, true, true, true, true, true, ⟨true, true⟩, ⟨true, true⟩, ⟨true, true⟩⟩,
   true, true, true, true⟩

/-- An iteration whose SPIN NOW wait-and-click fails (a structural UI
failure at lines 444–446). -/
def spinFailIter : IterEnv :=
  ⟨false, false, false, ⟨some (0, 0), none⟩, quietConfirm, false, true, false, false⟩

/-- The end-to-end scenario of the specification: budget 5, outcomes
Win(0.1 ETH), Loss, Loss, Win(0.2 ETH), Indeterminate. -/
def c3envs : List IterEnv :=
  [winIter (1/10) "ETH", lossIter, lossIter, winIter (2/10) "ETH", indetIter]

/-- A four-iteration run with two wins and two losses. -/
def c2envs : List IterEnv :=
  [winIter (1/10) "ETH", lossIter, lossIter, winIter (2/10) "ETH"]

/-- A confirmation environment whose wallet modal never attaches but
whose Confirm control would be found and clickable if it did. -/
def noAttachConfirm : ConfirmEnv :=
  ⟨false, false, true, false, true, false, ⟨true, true⟩, ⟨true, true⟩, ⟨true, true⟩⟩

/-! ### Helper lemmas about the loop and the flag sequences -/

/-- Each return of `process_spin_result` changes at most one of the two
counters, by exactly one. -/
theorem process_spin_result_counters {env : ResultEnv} {w l w2 l2 : ℕ} {tw tw2 : Ledger}
    (h : process_spin_result env w l tw = some (w2, l2, tw2)) :
    (w2 = w + 1 ∧ l2 = l) ∨ (w2 = w ∧ l2 = l + 1) ∨ (w2 = w ∧ l2 = l) := by
  obtain ⟨counts, prize⟩ := env
  rcases counts with _ | ⟨cc, nc⟩ <;> simp only [process_spin_result] at h
  · exact absurd h (by simp)
  · split at h
    · simp only [Option.some.injEq, Prod.mk.injEq] at h
      exact Or.inl ⟨h.1.symm, h.2.1.symm⟩
    · split at h <;> simp only [Option.some.injEq, Prod.mk.injEq] at h
      · exact Or.inr (Or.inl ⟨h.1.symm, h.2.1.symm⟩)
      · exact Or.inr (Or.inr ⟨h.1.symm, h.2.1.symm⟩)

/-- State invariants of the spin loop: the counters gain at most one per
advance of the loop variable (plus one for a final partially-run
iteration), every recorded win or loss belongs to an iteration whose
bookkeeping finished, and only started iterations get processed. -/
theorem spinLoop_invariants (envs : List IterEnv) (s : LoopSt) :
    (spinLoop envs s).wins + (spinLoop envs s).losses + s.i ≤
        s.wins + s.losses + (spinLoop envs s).i + 1 ∧
      (spinLoop envs s).wins + (spinLoop envs s).losses + s.processed ≤
        s.wins + s.losses + (spinLoop envs s).processed ∧
      (spinLoop envs s).processed + s.started ≤ s.processed + (spinLoop envs s).started := by
  induction envs generalizing s with
  | nil => simp only [spinLoop]; omega
  | cons e rest ih =>
    simp only [spinLoop]
    split
    · omega
    · split
      · dsimp only; omega
      · split
        · dsimp only; omega
        · rename_i w l tw hpr
          have hc := process_spin_result_counters hpr
          split
          · dsimp only; omega
          · split
            · dsimp only; omega
            · have := ih { i := s.i + 1, wins := w, losses := l, winnings := tw,
                           started := s.started + 1, processed := s.processed + 1,
                           completed := s.completed + 1 }
              dsimp only at this ⊢
              omega

/-- On a nonempty environment list the final loop variable stays below
the starting index plus the budget. -/
theorem spinLoop_i_lt (envs : List IterEnv) : ∀ s : LoopSt, envs ≠ [] →
    (spinLoop envs s).i + 1 ≤ s.i + envs.length := by
  induction envs with
  | nil => intro s h; exact absurd rfl h
  | cons e rest ih =>
    intro s _
    simp only [spinLoop, List.length_cons]
    split
    · omega
    · split
      · dsimp only; omega
      · split
        · dsimp only; omega
        · rename_i w l tw hpr
          split
          · dsimp only; omega
          · split
            · dsimp only; omega
            · cases rest with
              | nil => simp only [spinLoop]; omega
              | cons e2 rest2 =>
                have := ih { i := s.i + 1, wins := w, losses := l, winnings := tw,
                             started := s.started + 1, processed := s.processed + 1,
                             completed := s.completed + 1 } (by simp)
                simp only [List.length_cons] at this ⊢
                omega

/-- If, from iteration `k` on, every remaining iteration would read the
shutdown flag as set at its head check (line 436), then at most `k`
further iterations start. -/
theorem spinLoop_started_le (envs : List IterEnv) : ∀ (s : LoopSt) (k : ℕ),
    (∀ j, k ≤ j → j < envs.length → (envs.getD j default).sd0 = true) →
    (spinLoop envs s).started ≤ s.started + k := by
  induction envs with
  | nil => intro s k _; simp only [spinLoop]; omega
  | cons e rest ih =>
    intro s k h
    cases k with
    | zero =>
      have he : e.sd0 = true := by simpa using h 0 (Nat.le_refl 0) (by simp)
      simp only [spinLoop, he, if_true]
      omega
    | succ k =>
      have h2 : ∀ j, k ≤ j → j < rest.length → (rest.getD j default).sd0 = true := by
        intro j hj hl
        have := h (j + 1) (by omega) (by simp only [List.length_cons]; omega)
        simpa using this
      simp only [spinLoop]
      split
      · omega
      · split
        · dsimp only; omega
        · split
          · dsimp only; omega
          · rename_i w l tw hpr
            split
            · dsimp only; omega
            · split
              · dsimp only; omega
              · have := ih { i := s.i + 1, wins := w, losses := l, winnings := tw,
                             started := s.started + 1, processed := s.processed + 1,
                             completed := s.completed + 1 } k h2
                dsimp only at this ⊢
                omega

/-- A run observes eight flag readings per iteration. -/
theorem sdFlags_length (envs : List IterEnv) : (sdFlags envs).length = 8 * envs.length := by
  induction envs with
  | nil => simp [sdFlags]
  | cons e rest ih =>
    simp only [sdFlags, List.length_append, List.length_cons, ih, checkFlags]
    simp only [List.length_cons, List.length_nil]
    ring

/-- Position `8 * j + r` of the flag sequence is reading `r` of
iteration `j`. -/
theorem sdFlags_getD (envs : List IterEnv) : ∀ j r : ℕ, j < envs.length → r < 8 →
    (sdFlags envs).getD (8 * j + r) false = (checkFlags (envs.getD j default)).getD r false := by
  induction envs with
  | nil => intro j r hj _; simp at hj
  | cons e rest ih =>
    intro j r hj hr
    cases j with
    | zero =>
      have hlen : (checkFlags e).length = 8 := by simp [checkFlags]
      simp only [sdFlags, Nat.mul_zero, Nat.zero_add, List.getD_cons_zero]
      rw [List.getD_append _ _ _ _ (by omega)]
    | succ j =>
      have hlen : (checkFlags e).length = 8 := by simp [checkFlags]
      have harith : 8 * (j + 1) + r = (checkFlags e).length + (8 * j + r) := by
        rw [hlen]; ring
      simp only [sdFlags]
      rw [harith, List.getD_append_right _ _ _ _ (by omega)]
      have := ih j r (by simpa using Nat.lt_of_succ_lt_succ (by simpa using hj)) hr
      simpa using this

/-- In an all-true list every position reads `true`. -/
theorem all_getD_true {l : List Bool} (h : l.all (fun x => x) = true) :
    ∀ q : ℕ, q < l.length → l.getD q false = true := by
  induction l with
  | nil => intro q hq; simp at hq
  | cons b rest ih =>
    intro q hq
    simp only [List.all_cons, Bool.and_eq_true] at h
    cases q with
    | zero => simpa using h.1
    | succ q => simpa using ih h.2 q (by simpa using Nat.lt_of_succ_lt_succ (by simpa using hq))

/-- Peeling one reading off a monotone sequence. -/
theorem sdMonoList_cons {b : Bool} {rest : List Bool} (h : sdMonoList (b :: rest) = true) :
    sdMonoList rest = true ∧ (b = true → rest.all (fun x => x) = true) := by
  simp only [sdMonoList, Bool.and_eq_true, Bool.or_eq_true, Bool.not_eq_true'] at h
  refine ⟨h.2, fun hb => ?_⟩
  rcases h.1 with h1 | h1
  · rw [hb] at h1; cases h1
  · exact h1

/-- Monotone transfer: in a monotone reading sequence, a `true` at
position `p` forces `true` at every later position `q`. -/
theorem sdMonoList_getD {l : List Bool} (h : sdMonoList l = true) : ∀ p q : ℕ, p ≤ q →
    q < l.length → l.getD p false = true → l.getD q false = true := by
  induction l with
  | nil => intro p q _ hq _; simp at hq
  | cons b rest ih =>
    intro p q hpq hq hp
    obtain ⟨hmono, himp⟩ := sdMonoList_cons h
    cases p with
    | zero =>
      have hb : b = true := by simpa using hp
      cases q with
      | zero => simpa using hp
      | succ q =>
        have := all_getD_true (himp hb) q (by simpa using Nat.lt_of_succ_lt_succ (by simpa using hq))
        simpa using this
    | succ p =>
      cases q with
      | zero => omega
      | succ q =>
        have := ih hmono p q (by omega)
          (by simpa using Nat.lt_of_succ_lt_succ (by simpa using hq)) (by simpa using hp)
        simpa using this

/-- A list with a `true` somewhere has a `true` at some position. -/
theorem any_getD_true {l : List Bool} (h : l.any (fun b => b) = true) :
    ∃ r, r < l.length ∧ l.getD r false = true := by
  induction l with
  | nil => simp at h
  | cons b rest ih =>
    cases hb : b with
    | true => exact ⟨0, by simp, by simp [hb]⟩
    | false =>
      simp only [List.any_cons, hb, Bool.false_or] at h
      obtain ⟨r, hr, hg⟩ := ih h
      exact ⟨r + 1, by simp only [List.length_cons]; omega, by simpa using hg⟩

/-- The digit-run search skips a digit-free leading segment. -/
theorem firstDigitRun_append {a : List Char} (t : List Char)
    (ha : ∀ c ∈ a, c.isDigit = false) : firstDigitRun (a ++ t) = firstDigitRun t := by
  induction a with
  | nil => simp
  | cons c a2 ih =>
    have hc : c.isDigit = false := ha c (by simp)
    simp only [List.cons_append, firstDigitRun, hc, Bool.false_eq_true, if_false]
    exact ih fun x hx => ha x (by simp [hx])

/-- `takeWhile` of an all-digit segment followed by a non-digit
boundary is exactly the segment. -/
theorem takeWhile_digits {d b : List Char} (hd : ∀ c ∈ d, c.isDigit = true)
    (hb : ∀ c, b.head? = some c → c.isDigit = false) :
    (d ++ b).takeWhile Char.isDigit = d := by
  induction d with
  | nil =>
    cases b with
    | nil => simp
    | cons c b2 =>
      have := hb c (by simp)
      simp [List.takeWhile, this]
  | cons c d2 ih =>
    have hc : c.isDigit = true := hd c (by simp)
    simp only [List.cons_append, List.takeWhile_cons, hc, if_true]
    rw [ih fun x hx => hd x (by simp [hx])]

/-- A digit-free text has no digit run. -/
theorem firstDigitRun_eq_none {t : List Char} (h : ∀ c ∈ t, c.isDigit = false) :
    firstDigitRun t = none := by
  induction t with
  | nil => rfl
  | cons c t2 ih =>
    have hc : c.isDigit = false := h c (by simp)
    simp only [firstDigitRun, hc, Bool.false_eq_true, if_false]
    exact ih fun x hx => h x (by simp [hx])

/-! ### The claims -/

/-- Claim C1 (amended): for every spin budget `N ≥ 0` (the length of the
environment list) and every run of the spin cycle, the final statistics
satisfy `wins + losses ≤ spins_completed ≤ N`, and `spins_completed = 0`
forces `wins + losses = 0`.  The original claim's two finer clauses —
`spins_completed = 0` iff zero iterations completed, and
`spins_completed = N` only on full completion — fail on the code
(see the counterexample theorem). -/
theorem c1_stats_bounds (envs : List IterEnv) :
    (performStats envs).wins + (performStats envs).losses ≤ (performStats envs).total_spins ∧
    (performStats envs).total_spins ≤ envs.length ∧
    ((performStats envs).total_spins = 0 →
      (performStats envs).wins + (performStats envs).losses = 0) := by
  have hinv := spinLoop_invariants envs initSt
  have hw : initSt.wins = 0 := rfl
  have hl : initSt.losses = 0 := rfl
  have hii : initSt.i = 0 := rfl
  simp only [performStats]
  by_cases hguard : 0 < (spinLoop envs initSt).i ∨
      0 < (spinLoop envs initSt).wins + (spinLoop envs initSt).losses
  · rw [if_pos hguard]
    refine ⟨by omega, ?_, fun h => by omega⟩
    rcases envs with _ | ⟨e, rest⟩
    · exfalso
      have hnil : spinLoop [] initSt = { initSt with i := initSt.i - 1 } := rfl
      rw [hnil] at hguard
      simp [initSt] at hguard
    · have := spinLoop_i_lt (e :: rest) initSt (by simp)
      omega
  · rw [if_neg hguard]
    push_neg at hguard
    omega

/-- Claim C1, counterexample to the original statement.  First run:
budget 1, the single iteration completes fully with an indeterminate
outcome, yet `spins_completed = 0` (so `spins_completed = 0` does not
imply zero completed iterations).  Second run: budget 2, iteration 0
completes (a loss), the shutdown flag stops the loop at the head of
iteration 1, yet `spins_completed = 2 = N` with only one completed
iteration (so `spins_completed = N` does not imply the cycle ran all
`N` iterations to completion). -/
theorem c1_counterexample :
    (performStats [indetIter]).total_spins = 0 ∧
    (runSpins [indetIter]).completed = 1 ∧
    (performStats [lossIter, fullSdIter]).total_spins = 2 ∧
    (runSpins [lossIter, fullSdIter]).completed = 1 := by
  refine ⟨by decide, by decide, by decide, by decide⟩

/-- Claim C1, witness: the bounds instantiated on the five-iteration
scenario run. -/
theorem c1_stats_bounds_witness :
    (performStats [lossIter]).wins + (performStats [lossIter]).losses ≤
      (performStats [lossIter]).total_spins ∧
    (performStats [lossIter]).total_spins ≤ [lossIter].length ∧
    ((performStats [lossIter]).total_spins = 0 →
      (performStats [lossIter]).wins + (performStats [lossIter]).losses = 0) :=
  c1_stats_bounds [lossIter]

/-- Claim C2 (amended): the `win_rate` field equals `0` whenever
`wins + losses = 0` and otherwise `wins / (wins + losses) * 100` — a
percentage (50.0 for 2 wins and 2 losses), not the 0-to-1 fraction the
original claim states. -/
theorem c2_win_rate_percent (envs : List IterEnv) :
    (performStats envs).win_rate =
      if (performStats envs).wins + (performStats envs).losses = 0 then 0
      else ((performStats envs).wins : ℚ) /
        (((performStats envs).wins + (performStats envs).losses : ℕ) : ℚ) * 100 := by
  simp only [performStats]
  by_cases h : 0 < (spinLoop envs initSt).wins + (spinLoop envs initSt).losses
  · rw [if_pos h, if_neg (by omega)]
  · rw [if_neg h, if_pos (by omega)]

/-- Claim C2, counterexample to the original statement: a run with
2 wins and 2 losses has `win_rate = 50`, not `0.5`. -/
theorem c2_counterexample :
    (performStats c2envs).wins = 2 ∧ (performStats c2envs).losses = 2 ∧
    (performStats c2envs).win_rate = 50 ∧ (performStats c2envs).win_rate ≠ 1/2 := by
  have h : (performStats c2envs).win_rate = 50 := by
    simp only [c2envs, performStats, runSpins, spinLoop, process_spin_result, winIter, lossIter,
      quietConfirm, initSt]
    norm_num [addWinnings]
  exact ⟨by decide, by decide, h, by rw [h]; norm_num⟩

/-- Claim C3 (amended): running the cycle with budget 5 over the
outcome sequence Win(0.1 ETH), Loss, Loss, Win(0.2 ETH), Indeterminate
yields `spins_completed = 5`, `wins = 2`, `losses = 2`, winnings ledger
`ETH ↦ 0.3`, and `win_rate = 50` — a percentage, not the `0.5` of the
original claim. -/
theorem c3_scenario :
    performStats c3envs = ⟨5, 2, 2, 50, [("ETH", 3/10)]⟩ := by
  simp only [c3envs, performStats, runSpins, spinLoop, process_spin_result, winIter, lossIter,
    indetIter, quietConfirm, initSt]
  norm_num [addWinnings]

/-- Claim C3, counterexample to the original statement: the scenario's
`win_rate` is `50`, not `0.5`. -/
theorem c3_counterexample :
    (performStats c3envs).win_rate = 50 ∧ (performStats c3envs).win_rate ≠ 1/2 := by
  have h : (performStats c3envs).win_rate = 50 := by
    simp only [c3envs, performStats, runSpins, spinLoop, process_spin_result, winIter, lossIter,
      indetIter, quietConfirm, initSt]
    norm_num [addWinnings]
  exact ⟨h, by rw [h]; norm_num⟩

/-- Claim C4: if the (monotone, set-once) shutdown flag reads set at any
checked suspension point of iteration `i` of the spin cycle, the cycle
stops without starting a new iteration — at most iterations `0..i`
enter the loop body — and the returned statistics reflect only
fully-processed iterations: every recorded win or loss belongs to an
iteration whose bookkeeping finished, and only started iterations are
processed. -/
theorem c4_shutdown_stops_cycle (envs : List IterEnv) (i : ℕ) (hi : i < envs.length)
    (hmono : sdMonoList (sdFlags envs) = true)
    (hobs : (checkFlags (envs.getD i default)).any (fun b => b) = true) :
    (runSpins envs).started ≤ i + 1 ∧
    (runSpins envs).wins + (runSpins envs).losses ≤ (runSpins envs).processed ∧
    (runSpins envs).processed ≤ (runSpins envs).started := by
  obtain ⟨r, hr, hget⟩ := any_getD_true hobs
  have hr8 : r < 8 := by
    have hlen : (checkFlags (envs.getD i default)).length = 8 := by simp [checkFlags]
    omega
  have hflat : (sdFlags envs).getD (8 * i + r) false = true := by
    rw [sdFlags_getD envs i r hi hr8]; exact hget
  have hsd0 : ∀ j, i + 1 ≤ j → j < envs.length → (envs.getD j default).sd0 = true := by
    intro j hj hjl
    have hq : (sdFlags envs).getD (8 * j) false = true := by
      apply sdMonoList_getD hmono (8 * i + r) (8 * j) (by omega) _ hflat
      rw [sdFlags_length]
      omega
    have hpos := sdFlags_getD envs j 0 hjl (by omega)
    rw [Nat.add_zero] at hpos
    rw [hpos] at hq
    simpa [checkFlags] using hq
  have hstart := spinLoop_started_le envs initSt (i + 1) hsd0
  have hinv := spinLoop_invariants envs initSt
  have h1 : initSt.wins = 0 := rfl
  have h2 : initSt.losses = 0 := rfl
  have h3 : initSt.processed = 0 := rfl
  have h4 : initSt.started = 0 := rfl
  simp only [runSpins]
  omega

/-- Claim C4, witness: a run whose first iteration is an undisturbed
loss and whose second iteration observes the shutdown flag at every
suspension point; the flag sequence is monotone, the flag is observed
in iteration 1, and at most two iterations start. -/
theorem c4_shutdown_stops_cycle_witness :
    (runSpins [lossIter, fullSdIter]).started ≤ 1 + 1 ∧
    (runSpins [lossIter, fullSdIter]).wins + (runSpins [lossIter, fullSdIter]).losses ≤
      (runSpins [lossIter, fullSdIter]).processed ∧
    (runSpins [lossIter, fullSdIter]).processed ≤ (runSpins [lossIter, fullSdIter]).started :=
  c4_shutdown_stops_cycle [lossIter, fullSdIter] 1 (by decide) (by decide) (by decide)

/-- Claim C5 (amended): a structural UI failure on the spin-trigger
click, or on the continue ("Spin Again") click, terminates the current
cycle — the run's outcome does not depend on the environments of any
later iteration, and only the failing iteration started beyond the
state reached so far — but the error is not propagated to the top-level
driver: the `except` clauses at lines 481–491 catch it, break the loop,
and `perform_spins` returns the partial statistics normally. -/
theorem c5_structural_failure_stops (e : IterEnv) (rest rest2 : List IterEnv) (s : LoopSt)
    (h0 : e.sd0 = false)
    (h1 : e.spinOk = false ∨ (e.sd2 = false ∧ e.contOk = false)) :
    spinLoop (e :: rest) s = spinLoop (e :: rest2) s ∧
    (spinLoop (e :: rest) s).started = s.started + 1 ∧
    perform_spins (e :: rest) = Except.ok (performStats (e :: rest)) := by
  have key : ∀ r : List IterEnv, spinLoop (e :: r) s =
      if e.spinOk = false then { s with started := s.started + 1 }
      else
        match process_spin_result e.res s.wins s.losses s.winnings with
        | none => { s with started := s.started + 1 }
        | some (w, l, tw) =>
          { s with wins := w, losses := l, winnings := tw,
                   started := s.started + 1, processed := s.processed + 1 } := by
    intro r
    rcases h1 with hspin | ⟨hsd2, hcont⟩
    · simp only [spinLoop, h0, Bool.false_eq_true, if_false, hspin, if_true]
    · simp only [spinLoop, h0, hsd2, hcont, Bool.false_eq_true, if_false]
      split
      · rfl
      · split
        · rfl
        · rfl
  refine ⟨(key rest).trans (key rest2).symm, ?_, rfl⟩
  rw [key rest]
  split
  · rfl
  · split
    · rfl
    · rfl

/-- Claim C5, counterexample to the original statement: with a failing
spin-trigger click in iteration 0 of a budget-2 run, the cycle stops
(only one iteration starts) but no error reaches the caller —
`perform_spins` returns the statistics record normally instead of
propagating the failure to the top-level driver. -/
theorem c5_counterexample :
    perform_spins [spinFailIter, lossIter] = Except.ok ⟨0, 0, 0, 0, []⟩ ∧
    (runSpins [spinFailIter, lossIter]).started = 1 := by
  constructor
  · simp only [perform_spins, performStats, runSpins, spinLoop, process_spin_result, spinFailIter,
      lossIter, quietConfirm, initSt]
    norm_num
  · decide

/-- Claim C5, witness: the amended statement instantiated on a run
whose first iteration's spin click fails. -/
theorem c5_structural_failure_stops_witness :
    spinLoop [spinFailIter, lossIter] initSt = spinLoop [spinFailIter] initSt ∧
    (spinLoop [spinFailIter, lossIter] initSt).started = initSt.started + 1 ∧
    perform_spins [spinFailIter, lossIter] = Except.ok (performStats [spinFailIter, lossIter]) :=
  c5_structural_failure_stops spinFailIter [lossIter] [] initSt (by decide) (Or.inl (by decide))

/-- Claim C6: the spin counter reader never fails its caller.  Given
displayed text decomposing as a digit-free prefix, a nonempty maximal
digit run, and a remainder not starting with a digit, it returns that
run parsed as an integer; given text with no digit at all, or no text
(control not found or any automation error), it returns the fixed
fallback 3000. -/
theorem c6_spin_counter_reader (a d b : List Char)
    (ha : ∀ c ∈ a, c.isDigit = false) (hd0 : d ≠ []) (hd : ∀ c ∈ d, c.isDigit = true)
    (hb : ∀ c, b.head? = some c → c.isDigit = false) :
    parse_remaining_spins (some ⟨a ++ d ++ b⟩) = natOfDigits d ∧
    (∀ t : List Char, (∀ c ∈ t, c.isDigit = false) →
      parse_remaining_spins (some ⟨t⟩) = 3000) ∧
    parse_remaining_spins none = 3000 := by
  refine ⟨?_, ?_, rfl⟩
  · rcases d with _ | ⟨c, ds⟩
    · exact absurd rfl hd0
    · simp only [parse_remaining_spins]
      rw [List.append_assoc]
      rw [firstDigitRun_append ((c :: ds) ++ b) ha]
      have hc : c.isDigit = true := hd c (by simp)
      simp only [firstDigitRun, hc, if_true]
      exact congrArg natOfDigits (takeWhile_digits hd hb)
  · intro t ht
    simp only [parse_remaining_spins]
    rw [firstDigitRun_eq_none ht]

/-- Claim C6, witness: the reader returns 1423 on the displayed text
of the specification's example and the fallback 3000 on digit-free
text. -/
theorem c6_spin_counter_reader_witness :
    parse_remaining_spins (some "Spins Remaining: 1423") = 1423 ∧
    parse_remaining_spins (some "no digits here") = 3000 := by
  constructor
  · have h := (c6_spin_counter_reader "Spins Remaining: ".data "1423".data []
      (by decide) (by decide) (by decide) (by intro c hc; simp at hc)).1
    have hs : (⟨"Spins Remaining: ".data ++ "1423".data ++ []⟩ : String)
        = "Spins Remaining: 1423" := by decide
    rw [hs] at h
    rw [h]
    decide
  · have h := (c6_spin_counter_reader "x".data ['1'] []
      (by decide) (by decide) (by decide)
      (by intro c hc; simp at hc)).2.1 "no digits here".data (by decide)
    have hs : (⟨"no digits here".data⟩ : String) = "no digits here" := by decide
    rw [hs] at h
    exact h

/-- Claim C7: for every pair of win-heading and loss-heading counts
observed by the result classifier, a nonzero win count yields a win
(wins incremented) even when the loss count is also nonzero; a zero win
count with nonzero loss count yields a loss; and with both counts zero
neither counter moves and, in an otherwise undisturbed iteration, the
spin cycle continues with the next iteration. -/
theorem c7_classifier_precedence (cc nc w l : ℕ) (tw : Ledger) (prize : Option (ℚ × String)) :
    (0 < cc → ∃ tw2, process_spin_result ⟨some (cc, nc), prize⟩ w l tw = some (w + 1, l, tw2)) ∧
    (cc = 0 → 0 < nc → process_spin_result ⟨some (cc, nc), prize⟩ w l tw = some (w, l + 1, tw)) ∧
    (cc = 0 → nc = 0 → process_spin_result ⟨some (cc, nc), prize⟩ w l tw = some (w, l, tw)) ∧
    (∀ (e : IterEnv) (rest : List IterEnv) (s : LoopSt),
      e.res.counts = some (0, 0) → e.sd0 = false → e.spinOk = true → e.sd2 = false →
      e.contOk = true →
      spinLoop (e :: rest) s = spinLoop rest
        { s with i := s.i + 1, started := s.started + 1, processed := s.processed + 1,
                 completed := s.completed + 1 }) := by
  refine ⟨?_, ?_, ?_, ?_⟩
  · intro h
    simp only [process_spin_result, h, if_true]
    exact ⟨_, rfl⟩
  · intro h1 h2
    subst h1
    simp [process_spin_result, h2]
  · intro h1 h2
    subst h1
    subst h2
    simp [process_spin_result]
  · intro e rest s hc h0 hsp hsd2 hcont
    have hpr : process_spin_result e.res s.wins s.losses s.winnings =
        some (s.wins, s.losses, s.winnings) := by
      simp [process_spin_result, hc]
    simp only [spinLoop, h0, hsp, hsd2, hcont, hpr, Bool.false_eq_true, Bool.true_eq_false,
      if_false]

/-- Claim C7, witness: the three classifier cases and the continuation
instantiated at concrete counts and an undisturbed indeterminate
iteration. -/
theorem c7_classifier_precedence_witness :
    (∃ tw2, process_spin_result ⟨some (2, 1), none⟩ 3 4 [] = some (3 + 1, 4, tw2)) ∧
    process_spin_result ⟨some (0, 3), none⟩ 3 4 [] = some (3, 4 + 1, []) ∧
    process_spin_result ⟨some (0, 0), none⟩ 3 4 [] = some (3, 4, []) ∧
    spinLoop [indetIter] initSt = spinLoop []
      { initSt with i := initSt.i + 1, started := initSt.started + 1,
                    processed := initSt.processed + 1, completed := initSt.completed + 1 } := by
  refine ⟨(c7_classifier_precedence 2 1 3 4 [] none).1 (by decide),
    (c7_classifier_precedence 0 3 3 4 [] none).2.1 rfl (by decide),
    (c7_classifier_precedence 0 0 3 4 [] none).2.2.1 rfl rfl,
    (c7_classifier_precedence 0 0 0 0 [] none).2.2.2 indetIter [] initSt
      (by decide) (by decide) (by decide) (by decide) (by decide)⟩

/-- Claim C8: when the win heading is present but the prize extraction
fails (element absent, no pattern match, or an automation error — all
modelled by a `none` extraction result), the wins counter is still
incremented by one and the winnings ledger is returned exactly
unchanged. -/
theorem c8_win_parse_failure (cc nc w l : ℕ) (tw : Ledger) (h : 0 < cc) :
    process_spin_result ⟨some (cc, nc), none⟩ w l tw = some (w + 1, l, tw) := by
  simp [process_spin_result, h]

/-- Claim C8, witness: a win with failed extraction increments wins and
leaves a nonempty ledger untouched. -/
theorem c8_win_parse_failure_witness :
    process_spin_result ⟨some (1, 1), none⟩ 5 6 [("ETH", 1)] = some (5 + 1, 6, [("ETH", 1)]) :=
  c8_win_parse_failure 1 1 5 6 [("ETH", 1)] (by decide)

/-- Claim C9: if the wallet confirmation surface never attaches within
the bounded wait, `confirm_transaction` returns without raising an
error to its caller and without attempting any click on a confirmation
control. -/
theorem c9_no_attach_no_click (env : ConfirmEnv) (h : env.attach = false) :
    (confirm_transaction env).clicks = 0 ∧
    (confirm_transaction env).raisedToCaller = false := by
  by_cases hsd : env.sdStart = true
  · simp [confirm_transaction, hsd]
  · simp [confirm_transaction, hsd, h]

/-- Claim C9, witness: a never-attaching environment whose Confirm
control would otherwise be found and clickable produces zero clicks and
no error. -/
theorem c9_no_attach_no_click_witness :
    (confirm_transaction noAttachConfirm).clicks = 0 ∧
    (confirm_transaction noAttachConfirm).raisedToCaller = false :=
  c9_no_attach_no_click noAttachConfirm (by decide)

/-- Claim C10: every return of `process_spin_result` changes at most one
of the two counters, by exactly one increment — wins and losses are
never both incremented in one call, and neither ever decreases. -/
theorem c10_counter_step (env : ResultEnv) (w l w2 l2 : ℕ) (tw tw2 : Ledger)
    (h : process_spin_result env w l tw = some (w2, l2, tw2)) :
    (w2 = w + 1 ∧ l2 = l) ∨ (w2 = w ∧ l2 = l + 1) ∨ (w2 = w ∧ l2 = l) :=
  process_spin_result_counters h

/-- Claim C10, witness: a winning call moves only the wins counter. -/
theorem c10_counter_step_witness :
    process_spin_result ⟨some (1, 0), none⟩ 5 6 [] = some (6, 6, []) ∧
    ((6 = 5 + 1 ∧ 6 = 6) ∨ (6 = 5 ∧ 6 = 6 + 1) ∨ (6 = 5 ∧ 6 = 6)) :=
  ⟨by decide, c10_counter_step ⟨some (1, 0), none⟩ 5 6 6 6 [] [] (by decide)⟩
